import Mathlib

/-!
# Verification of the Things3TodaySync reconciliation engine

Shallow embedding of the core of the repository:

* `canonTitle` — `src/utils.py` `canonTitle` (and its copies `canon_title` in
  `src/extract_anytime.py` / `src/extract_upcoming.py`).
* `detectChanges`, `findThingsUUID`, `convertGoogleDateToThings`,
  `syncListStep`, `pruneOrphans` — `src/google_to_things_sync.py`
  (`TwoWaySync` methods).
* `filterSomeday`, `filterAnytime` — the dedup loops of
  `src/extract_someday.py` `extractAllSomedayTasks` and
  `src/extract_anytime.py` `extractAnytimeTasks`.
* `saveTaskMappingOps`, `saveSyncStateOps` — the file-system effect traces of
  `TwoWaySync._saveTaskMapping` / `_saveSyncState`.

Python strings are modelled as `List Char` / `String` restricted to the ASCII
range (the source only relies on ASCII behaviour of `str.split`, `str.strip`,
`str.lower`).  Python `dict`s are modelled as insertion-ordered association
lists.  External I/O (the Things URL scheme, the Google Tasks REST calls) is
modelled by an oracle environment `Env` giving each call's reported outcome,
and by an `Effect` trace recording the calls that were issued, in order.
-/

namespace Things3Sync

/-! ## Python string primitives (ASCII fragment) -/

/-- The ASCII whitespace characters recognised by Python's `str.split()` /
`str.strip()` (space, tab, newline, carriage return, vertical tab, form
feed). -/
def isSpaceChar (c : Char) : Bool :=
  c = ' ' || c = '\t' || c = '\n' || c = '\r' || c = '\x0b' || c = '\x0c'

/-- Python's `str.lower()` on the ASCII range, character-wise (`Char.toLower` maps
`A`-`Z` to `a`-`z` and leaves everything else unchanged, exactly as Python
does on ASCII). -/
def lowerStr (l : List Char) : List Char := l.map Char.toLower

/-- Python's no-argument `str.split()`: split on runs of whitespace,
dropping empty fields (so leading/trailing whitespace produces no fields).
Structural recursion: a non-space character either starts a new word (when
followed by a space or the end) or extends the first word of the tail's
split. -/
def splitWs : List Char → List (List Char)
  | [] => []
  | [c] => if isSpaceChar c then [] else [[c]]
  | c :: d :: cs =>
    if isSpaceChar c then splitWs (d :: cs)
    else if isSpaceChar d then [c] :: splitWs cs
    else
      match splitWs (d :: cs) with
      | [] => [[c]]
      | w :: ws => (c :: w) :: ws

/-- Python's `" ".join(...)` on a list of words. -/
def joinSp : List (List Char) → List Char
  | [] => []
  | [w] => w
  | w :: ws => w ++ ' ' :: joinSp ws

/-- Python's `str.strip()`: drop leading and trailing whitespace. -/
def pystrip (l : List Char) : List Char :=
  ((l.dropWhile isSpaceChar).reverse.dropWhile isSpaceChar).reverse

/-- Function `canonTitle` from `src/utils.py`:
`" ".join(title.strip().split()).lower()`. -/
def canonTitle (l : List Char) : List Char :=
  lowerStr (joinSp (splitWs (pystrip l)))

/-- Packaged form of `canonTitle` on `String`. -/
def canonTitleS (s : String) : String := ⟨canonTitle s.data⟩

/-! ## Data model of the two-way sync (`src/google_to_things_sync.py`) -/

/-- Python truthiness of an optional string: `None` and `""` are falsy. -/
def pyTruthy : Option String → Bool
  | none => false
  | some s => s ≠ ""

/-- A Google Task as fetched from the cloud API; `none` models a missing
dict key (the code reads every field with `task.get(...)`). -/
structure GTask where
  id : Option String := none
  title : Option String := none
  status : Option String := none
  due : Option String := none
  updated : Option String := none
deriving DecidableEq

/-- One entry of `task_mapping` (the JSON object stored per Things UUID);
fields read with `mapping.get(...)`, so `none` models a missing key. -/
structure MappingEntry where
  google_id : Option String := none
  title : Option String := none
  last_synced : Option String := none
deriving DecidableEq

/-- One entry of `sync_state["task_states"]`, as written by `detectChanges`
lines 308-313 (`status` is always set; the other fields may be `None`). -/
structure TaskState where
  status : String
  due : Option String := none
  title : Option String := none
  updated : Option String := none
deriving DecidableEq

/-- Python `dict.get`: first entry with the given key, insertion order. -/
def alookup {κ α : Type} [DecidableEq κ] : List (κ × α) → κ → Option α
  | [], _ => none
  | (k, v) :: rest, key => if k = key then some v else alookup rest key

/-- Python `d[key] = v`: replace in place if the key exists, else append. -/
def aset {κ α : Type} [DecidableEq κ] : List (κ × α) → κ → α → List (κ × α)
  | [], key, v => [(key, v)]
  | (k, w) :: rest, key, v =>
    if k = key then (k, v) :: rest else (k, w) :: aset rest key v

/-- Python `del d[key]`: drop the (unique, in a dict) entry with that key. -/
def aerase {κ α : Type} [DecidableEq κ] : List (κ × α) → κ → List (κ × α)
  | [], _ => []
  | (k, w) :: rest, key => if k = key then rest else (k, w) :: aerase rest key

/-- Store `task_mapping`: Things UUID → mapping entry, insertion-ordered. -/
abbrev Mapping := List (String × MappingEntry)

/-- Store `sync_state["task_states"]`: Google task id (`task.get('id')`) →
observed state, insertion-ordered. -/
abbrev TaskStates := List (Option String × TaskState)

/-- The changeset dict built by `detectChanges`: keys `completed`,
`mark_for_deletion`, `deadline`; `none`/`false` model an absent key. -/
structure Changeset where
  completed : Option String := none
  mark_for_deletion : Bool := false
  deadline : Option String := none
deriving DecidableEq

/-- Emptiness test `if changes:` — the changeset dict is empty iff no key was ever set. -/
def Changeset.isEmpty (c : Changeset) : Bool :=
  c.completed = none && !c.mark_for_deletion && c.deadline = none

/-- Stripping `changes.pop('mark_for_deletion', False)`: the dict that is actually sent
to the Things URL scheme no longer carries the deletion flag. -/
def stripMfd (c : Changeset) : Changeset := { c with mark_for_deletion := false }

/-! ### Date conversion (`TwoWaySync.convertGoogleDateToThings`, lines 207-230) -/

/-- ASCII decimal digit test. -/
def isDigitC (c : Char) : Bool := '0' ≤ c && c ≤ '9'

/-- Numeric value of an ASCII digit. -/
def digitVal (c : Char) : Nat := c.toNat - 48

/-- Two-digit decimal value. -/
def d2 (a b : Char) : Nat := digitVal a * 10 + digitVal b

/-- Gregorian leap-year rule (as used by Python's `datetime`). -/
def isLeapYear (y : Nat) : Bool := (y % 4 = 0 && !(y % 100 = 0)) || y % 400 = 0

/-- Days in a month (as validated by Python's `datetime`). -/
def daysInMonth (y m : Nat) : Nat :=
  if m = 2 then (if isLeapYear y then 29 else 28)
  else if m = 4 || m = 6 || m = 9 || m = 11 then 30
  else 31

/-- UTC-offset suffix accepted by `datetime.fromisoformat`: empty, or
`±HH:MM` (the only offset shape this program produces, via
`.replace('Z', '+00:00')`). -/
def validOffsetPart : List Char → Bool
  | [] => true
  | [sign, h1, h2, col, m1, m2] =>
    (sign = '+' || sign = '-') && col = ':' &&
    isDigitC h1 && isDigitC h2 && isDigitC m1 && isDigitC m2 &&
    d2 h1 h2 ≤ 23 && d2 m1 m2 ≤ 59
  | _ => false

/-- Fractional-seconds suffix of `fromisoformat`: empty, an offset, or `.`
followed by exactly 3 or 6 digits and then an optional offset. -/
def validFracPart : List Char → Bool
  | [] => true
  | '.' :: rest =>
    let digits := rest.takeWhile isDigitC
    (digits.length = 3 || digits.length = 6) && validOffsetPart (rest.drop digits.length)
  | rest => validOffsetPart rest

/-- Time part of `fromisoformat`: `HH[:MM[:SS[.fff[fff]]]]` with an optional
trailing offset, fields range-checked. -/
def validTimePart : List Char → Bool
  | h1 :: h2 :: rest =>
    isDigitC h1 && isDigitC h2 && d2 h1 h2 ≤ 23 &&
    (match rest with
     | [] => true
     | ':' :: m1 :: m2 :: rest2 =>
       isDigitC m1 && isDigitC m2 && d2 m1 m2 ≤ 59 &&
       (match rest2 with
        | [] => true
        | ':' :: s1 :: s2 :: rest3 =>
          isDigitC s1 && isDigitC s2 && d2 s1 s2 ≤ 59 && validFracPart rest3
        | rest3 => validOffsetPart rest3)
     | rest2 => validOffsetPart rest2)
  | _ => false

/-- Model of the acceptance of `datetime.fromisoformat` on the strings this
program meets (an RFC-3339-style date, optionally followed by `T` or a space
and a time): `YYYY-MM-DD`, digits range-checked against the real calendar,
year at least 1. -/
def pyISOValidL : List Char → Bool
  | y1 :: y2 :: y3 :: y4 :: s1 :: m1 :: m2 :: s2 :: a :: b :: rest =>
    isDigitC y1 && isDigitC y2 && isDigitC y3 && isDigitC y4 &&
    s1 = '-' && s2 = '-' && isDigitC m1 && isDigitC m2 &&
    isDigitC a && isDigitC b &&
    1 ≤ digitVal y1 * 1000 + digitVal y2 * 100 + digitVal y3 * 10 + digitVal y4 &&
    1 ≤ d2 m1 m2 && d2 m1 m2 ≤ 12 && 1 ≤ d2 a b &&
    d2 a b ≤ daysInMonth
      (digitVal y1 * 1000 + digitVal y2 * 100 + digitVal y3 * 10 + digitVal y4)
      (d2 m1 m2) &&
    (match rest with
     | [] => true
     | sep :: t => (sep = 'T' || sep = ' ') && validTimePart t)
  | _ => false

/-- Model of `google_date.replace('Z', '+00:00')`, character by character. -/
def replaceZ : List Char → List Char
  | [] => []
  | c :: rest =>
    if c = 'Z' then '+' :: '0' :: '0' :: ':' :: '0' :: '0' :: replaceZ rest
    else c :: replaceZ rest

/-- Method `TwoWaySync.convertGoogleDateToThings` (lines 207-230):
`datetime.fromisoformat(google_date.replace('Z', '+00:00')).strftime('%Y-%m-%d')`
guarded by `if not google_date: return ""` and a `try/except` returning `""`.
`fromisoformat` applies no timezone conversion and `strftime('%Y-%m-%d')`
prints the parsed (zero-padded) date fields, i.e. the first ten characters of
the accepted string; the library parse is modelled by `pyISOValidL`. -/
def convertGoogleDateToThings (google_date : String) : String :=
  if google_date = "" then ""
  else
    let r := replaceZ google_date.data
    if pyISOValidL r then ⟨r.take 10⟩ else ""

/-! ### Identity resolution and change detection -/

/-- Method `TwoWaySync.findThingsUUID` (lines 153-158): scan the mapping, in
insertion order, for the first entry whose `google_id` equals the given
Google task id.  No other lookup is performed. -/
def findThingsUUID : Mapping → String → Option String
  | [], _ => none
  | (u, m) :: rest, gid =>
    if m.google_id = some gid then some u else findThingsUUID rest gid

/-- Title-keyed scan used only by the spec's resolver model below. -/
def findByCanonTitle : Mapping → String → Option String
  | [], _ => none
  | (u, m) :: rest, key =>
    if canonTitleS (m.title.getD "") = key then some u else findByCanonTitle rest key

/-- Modelled from the spec: the Identity Resolver of spec §4.2 — "Looks up
the mapping by `cloud_id` first (exact, authoritative). If absent, falls back
to scanning the mapping for an entry whose `title` canonicalizes to the same
key as `cloud_task.title`", returning `None` when neither matches.  This
definition follows the spec's words, to be compared with the code's
`findThingsUUID`. -/
def resolveSpec (mapping : Mapping) (task : GTask) : Option String :=
  match findThingsUUID mapping (task.id.getD "") with
  | some u => some u
  | none => findByCanonTitle mapping (canonTitleS (task.title.getD ""))

/-- The observed-state record written by `detectChanges` (lines 308-313). -/
def observedOf (task : GTask) : TaskState :=
  { status := task.status.getD "needsAction"
    due := task.due
    title := task.title
    updated := task.updated }

/-- Method `TwoWaySync.detectChanges` (lines 269-315): compare one Google task with
its recorded previous state, emit the field-level changeset, and
unconditionally overwrite the recorded state with the task's current
fields. -/
def detectChanges (task : GTask) (states : TaskStates) : Changeset × TaskStates :=
  let task_id := task.id
  let prev := alookup states task_id
  let current_status := task.status.getD "needsAction"
  let prev_status : Option String := prev.map (fun st => st.status)
  let c1 : Changeset :=
    if current_status = "completed" then
      if pyTruthy prev_status = false ∨ prev_status ≠ some "completed" then
        { completed := some "true", mark_for_deletion := true }
      else {}
    else if prev_status = some "completed" ∧ current_status = "needsAction" then
      { completed := some "false" }
    else {}
  let current_due := task.due
  let prev_due : Option String := prev.bind (fun st => st.due)
  let c2 : Changeset :=
    if current_due ≠ prev_due then
      if pyTruthy current_due then
        let things_date := convertGoogleDateToThings (current_due.getD "")
        if things_date ≠ "" then { c1 with deadline := some things_date } else c1
      else { c1 with deadline := some "" }
    else c1
  (c2, aset states task_id (observedOf task))

/-! ### External effects and the reconciliation driver -/

/-- External calls issued by the driver, recorded in program order. -/
inductive Effect where
  | updateThings (uuid : String) (changes : Changeset)
  | cancelThings (uuid : String)
  | deleteGoogle (listId : String) (taskId : String)
deriving DecidableEq

/-- Oracle for the outcome of each external call: whether a Things auth token
is present, and the reported success of each `open` / REST invocation. -/
structure Env where
  authOk : Bool
  openUpdateOk : String → Changeset → Bool
  openCancelOk : String → Bool
  deleteGoogleOk : String → String → Bool

/-- Method `TwoWaySync.updateThingsTask` (lines 160-195): returns `False` without
issuing anything when no auth token is present; otherwise issues the
`things:///update` URL (with the auth token and the changeset fields) and
reports the `open` exit status. -/
def updateThingsTask (env : Env) (uuid : String) (changes : Changeset) :
    Bool × List Effect :=
  if env.authOk = false then (false, [])
  else (env.openUpdateOk uuid changes, [Effect.updateThings uuid changes])

/-- Method `TwoWaySync.deleteThingsTask` (lines 232-267): Things has no hard delete,
so the issued URL sets `canceled=true`; same auth-token guard. -/
def deleteThingsTask (env : Env) (uuid : String) : Bool × List Effect :=
  if env.authOk = false then (false, [])
  else (env.openCancelOk uuid, [Effect.cancelThings uuid])

/-- Method `TwoWaySync.deleteGoogleTask` (lines 197-205): REST delete, reported
outcome from the API call. -/
def deleteGoogleTask (env : Env) (listId taskId : String) : Bool × List Effect :=
  (env.deleteGoogleOk listId taskId, [Effect.deleteGoogle listId taskId])

/-- Mutable state threaded through one sync pass: the two persistent stores,
the effect trace, and the counters of `syncList`. -/
structure SyncSt where
  task_mapping : Mapping
  task_states : TaskStates
  effects : List Effect
  synced : Nat := 0
  deleted : Nat := 0
  cancelled : Nat := 0

/-- One iteration of the `for task in tasks` loop of `TwoWaySync.syncList`
(lines 326-360): skip id-less tasks, skip unmapped tasks, detect changes,
update Things, and — only on reported success — delete a completed task from
Google and drop its mapping and observed-state entries. -/
def syncListStep (env : Env) (listId : String) (st : SyncSt) (task : GTask) : SyncSt :=
  let task_id := task.id
  if pyTruthy task_id = false then st
  else
    match findThingsUUID st.task_mapping (task_id.getD "") with
    | none => st
    | some things_uuid =>
      let det := detectChanges task st.task_states
      let changes := det.1
      let st2 := { st with task_states := det.2 }
      if changes.isEmpty then st2
      else
        let mark_for_deletion := changes.mark_for_deletion
        let changes2 := stripMfd changes
        let upd := updateThingsTask env things_uuid changes2
        let st3 := { st2 with effects := st2.effects ++ upd.2 }
        if upd.1 = false then st3
        else
          let st4 := { st3 with synced := st3.synced + 1 }
          if mark_for_deletion && pyTruthy task_id then
            let del := deleteGoogleTask env listId (task_id.getD "")
            let st5 := { st4 with effects := st4.effects ++ del.2 }
            if del.1 then
              { st5 with
                deleted := st5.deleted + 1
                task_mapping := aerase st5.task_mapping things_uuid
                task_states :=
                  if (alookup st5.task_states task_id).isSome then
                    aerase st5.task_states task_id
                  else st5.task_states }
            else st5
          else st4

/-- Method `TwoWaySync.syncList` (lines 317-362) over an already-fetched task
list. -/
def syncList (env : Env) (listId : String) (st : SyncSt) (tasks : List GTask) : SyncSt :=
  tasks.foldl (syncListStep env listId) st

/-- Accumulator of the orphan-check loop in `TwoWaySync.syncAll`. -/
structure PruneSt where
  task_states : TaskStates
  effects : List Effect
  cancelled : Nat
  tasks_to_remove : List String

/-- Loop body of the orphan check in `TwoWaySync.syncAll` (lines 401-420),
for one mapping entry: a non-provisional entry (truthy `last_synced`) whose
truthy `google_id` is not in the liveness set is cancelled in Things; on
reported success its UUID is collected for removal and its observed-state
entry dropped.  Provisional entries and entries still live are skipped. -/
def pruneStep (env : Env) (live : List String) (acc : PruneSt)
    (entry : String × MappingEntry) : PruneSt :=
  let things_uuid := entry.1
  let google_id := entry.2.google_id
  if pyTruthy google_id && !(live.contains (google_id.getD "")) then
    if pyTruthy entry.2.last_synced then
      let del := deleteThingsTask env things_uuid
      let acc2 := { acc with effects := acc.effects ++ del.2 }
      if del.1 then
        { acc2 with
          cancelled := acc2.cancelled + 1
          tasks_to_remove := acc2.tasks_to_remove ++ [things_uuid]
          task_states :=
            if (alookup acc2.task_states google_id).isSome then
              aerase acc2.task_states google_id
            else acc2.task_states }
      else acc2
    else acc
  else acc

/-- The orphan-pruning phase of `TwoWaySync.syncAll` (lines 398-424): scan
the whole mapping against the liveness set `all_google_task_ids`, then
delete the collected UUIDs from the mapping (`del self.task_mapping[u]`). -/
def pruneOrphans (env : Env) (live : List String) (mapping : Mapping)
    (states : TaskStates) : Mapping × PruneSt :=
  let final := mapping.foldl (pruneStep env live)
    { task_states := states, effects := [], cancelled := 0, tasks_to_remove := [] }
  (final.tasks_to_remove.foldl aerase mapping, final)

/-! ### Cross-list deduplication (`src/extract_someday.py`, `src/extract_anytime.py`) -/

/-- One row of a previously written extraction CSV (only the two columns the
dedup code reads). -/
structure CsvRow where
  ItemName : String
  TaskID : String
deriving DecidableEq

/-- Function `loadExistingTitles` (src/utils.py lines 37-43) /
`load_existing_titles` (src/extract_anytime.py lines 27-32): the canonical
titles of the `ItemName` column.  The Python set is modelled by its member
list. -/
def loadExistingTitles (rows : List CsvRow) : List String :=
  rows.map (fun r => canonTitleS r.ItemName)

/-- The TaskID set built in `extractAllSomedayTasks` (lines 111-116):
`str(task_id) for task_id in df.get("TaskID", []) if task_id`. -/
def loadExistingTaskIds (rows : List CsvRow) : List String :=
  (rows.filter (fun r => r.TaskID ≠ "")).map (fun r => r.TaskID)

/-- A task record handed to the dedup filters
(`{title, notes, project, start_date, due_date, tags, task_id}`). -/
structure ExtractTask where
  title : String
  notes : String := ""
  project : String := ""
  start_date : String := ""
  due_date : String := ""
  tags : String := ""
  task_id : String := ""
deriving DecidableEq

/-- The dedup loop of `extractAllSomedayTasks` (src/extract_someday.py lines
123-136): a candidate is dropped when its truthy `task_id` is in the
accumulated TaskID set, or (title fallback) when its canonical title is in
the accumulated title set. -/
def filterSomeday (existing_task_ids existing_titles : List String)
    (tasks : List ExtractTask) : List ExtractTask :=
  tasks.filter (fun t =>
    !(t.task_id ≠ "" && existing_task_ids.contains t.task_id) &&
    !(existing_titles.contains (canonTitleS t.title)))

/-- The dedup loop of `extractAnytimeTasks` (src/extract_anytime.py lines
223-228): a candidate is dropped only when its canonical title is in the
accumulated title set — no identifier check exists on this path. -/
def filterAnytime (existing : List String) (tasks : List ExtractTask) :
    List ExtractTask :=
  tasks.filter (fun t => !(existing.contains (canonTitleS t.title)))

/-! ### Persistence (`TwoWaySync._saveTaskMapping` / `_saveSyncState`) -/

/-- File-system operations issued by the persistence helpers. -/
inductive FileOp where
  | makeDirs (dir : String)
  | writeFile (path : String)
  | renameFile (src dst : String)
deriving DecidableEq

/-- Constant `MAPPING_FILE` (line 31). -/
def MAPPING_FILE : String := "outputs/task_mapping.json"

/-- Constant `SYNC_STATE_FILE` (line 32). -/
def SYNC_STATE_FILE : String := "outputs/sync_state.json"

/-- Method `TwoWaySync._saveTaskMapping` (lines 79-83): `os.makedirs(...)` followed
by `open(MAPPING_FILE, 'w')` + `json.dump` — a direct in-place write of the
target file. -/
def saveTaskMappingOps : List FileOp :=
  [FileOp.makeDirs "outputs", FileOp.writeFile MAPPING_FILE]

/-- Method `TwoWaySync._saveSyncState` (lines 92-96): same direct-write shape for
the observed-state store. -/
def saveSyncStateOps : List FileOp :=
  [FileOp.makeDirs "outputs", FileOp.writeFile SYNC_STATE_FILE]

/-- Modelled from the spec: the "write-temp-then-rename discipline" of spec
§5 — the data is written to a temporary path distinct from the target which
is then renamed over the target, and the target itself is never opened for
direct writing. -/
def usesAtomicReplace (ops : List FileOp) (target : String) : Bool :=
  (ops.all (fun op => op ≠ FileOp.writeFile target)) &&
  ((ops.zip ops.tail).any (fun pq =>
    match pq with
    | (FileOp.writeFile p, FileOp.renameFile src dst) =>
      p = src && !(src = target) && dst = target
    | _ => false))

/-! ### Concrete fixtures used by the witness theorems -/

/-- An oracle where a token is present and every external call succeeds. -/
def envAllOk : Env := ⟨true, fun _ _ => true, fun _ => true, fun _ _ => true⟩

/-- An oracle where the Things update reports failure. -/
def envUpdateFails : Env := ⟨true, fun _ _ => false, fun _ => true, fun _ _ => true⟩

/-- An oracle where the Google delete reports failure. -/
def envDeleteFails : Env := ⟨true, fun _ _ => true, fun _ => true, fun _ _ => false⟩

/-- A mapping with one provisional entry (`U1`) and one synced entry (`U2`). -/
def exMapping : Mapping :=
  [("U1", { google_id := some "G1", title := some "Pay rent", last_synced := none }),
   ("U2",
     { google_id := some "G2"
       title := some "Buy milk"
       last_synced := some "2024-01-01T00:00:00" })]

/-- A cloud task that was just completed. -/
def exTaskCompleted : GTask :=
  { id := some "G1", title := some "Pay rent", status := some "completed" }

/-- A pass state over `exMapping` with empty observed state and trace. -/
def exSt : SyncSt := { task_mapping := exMapping, task_states := [], effects := [] }

/-! ## Canonicalizer lemmas -/

/-- A word produced by splitting: nonempty and whitespace-free. -/
def goodWord (w : List Char) : Prop :=
  w ≠ [] ∧ ∀ c ∈ w, isSpaceChar c = false

theorem char_toNat_ofNat {n : Nat} (h : n < 55296) : (Char.ofNat n).toNat = n := by
  rw [Char.ofNat, dif_pos (Or.inl h)]
  rfl

theorem toLower_eq_self {c : Char} (h : ¬(65 ≤ c.toNat ∧ c.toNat ≤ 90)) :
    c.toLower = c := by
  simp only [Char.toLower]
  rw [if_neg]
  intro hc
  exact h ⟨hc.1, hc.2⟩

theorem toLower_toNat_upper {c : Char} (h : 65 ≤ c.toNat ∧ c.toNat ≤ 90) :
    c.toLower.toNat = c.toNat + 32 := by
  simp only [Char.toLower]
  rw [if_pos ⟨h.1, h.2⟩]
  exact char_toNat_ofNat (by omega)

theorem toLower_idem (c : Char) : c.toLower.toLower = c.toLower := by
  by_cases h : 65 ≤ c.toNat ∧ c.toNat ≤ 90
  · apply toLower_eq_self
    rw [toLower_toNat_upper h]
    omega
  · rw [toLower_eq_self h, toLower_eq_self h]

theorem char_eq_iff_toNat {c d : Char} : c = d ↔ c.toNat = d.toNat := by
  constructor
  · rintro rfl; rfl
  · intro h
    exact Char.ext (UInt32.toNat.inj h)

theorem toNat_le_of_isSpaceChar {c : Char} (h : isSpaceChar c = true) :
    c.toNat ≤ 32 := by
  simp only [isSpaceChar, Bool.or_eq_true, decide_eq_true_eq] at h
  rcases h with ((((rfl | rfl) | rfl) | rfl) | rfl) | rfl <;> decide

theorem isSpaceChar_toLower (c : Char) : isSpaceChar c.toLower = isSpaceChar c := by
  by_cases h : 65 ≤ c.toNat ∧ c.toNat ≤ 90
  · have h1 := toLower_toNat_upper h
    have h2 : isSpaceChar c = false := by
      rw [Bool.eq_false_iff]
      intro hc
      have := toNat_le_of_isSpaceChar hc
      omega
    have h3 : isSpaceChar c.toLower = false := by
      rw [Bool.eq_false_iff]
      intro hc
      have := toNat_le_of_isSpaceChar hc
      omega
    rw [h2, h3]
  · rw [toLower_eq_self h]

theorem lowerStr_idem (w : List Char) : lowerStr (lowerStr w) = lowerStr w := by
  simp only [lowerStr, List.map_map]
  apply List.map_congr_left
  intro c _
  exact toLower_idem c

theorem goodWord_lowerStr {w : List Char} (h : goodWord w) : goodWord (lowerStr w) := by
  refine ⟨by simp [lowerStr, h.1], ?_⟩
  intro c hc
  simp only [lowerStr, List.mem_map] at hc
  obtain ⟨d, hd, rfl⟩ := hc
  rw [isSpaceChar_toLower]
  exact h.2 d hd

theorem splitWs_word : ∀ {w : List Char}, goodWord w → splitWs w = [w] := by
  intro w
  induction w with
  | nil => exact fun hw => absurd rfl hw.1
  | cons c w' ih =>
    intro hw
    cases w' with
    | nil =>
      rw [splitWs, if_neg (by simp [hw.2 c (by simp)])]
    | cons d cs =>
      rw [splitWs, if_neg (by simp [hw.2 c (by simp)]),
        if_neg (by simp [hw.2 d (by simp)])]
      rw [ih ⟨by simp, fun e he => hw.2 e (by simp [List.mem_cons.mp he])⟩]

theorem splitWs_word_append (r : List Char) :
    ∀ {w : List Char}, goodWord w → splitWs (w ++ ' ' :: r) = w :: splitWs r := by
  intro w
  induction w with
  | nil => exact fun hw => absurd rfl hw.1
  | cons c w' ih =>
    intro hw
    cases w' with
    | nil =>
      show splitWs (c :: ' ' :: r) = [c] :: splitWs r
      rw [splitWs, if_neg (by simp [hw.2 c (by simp)]),
        if_pos (by simp [isSpaceChar])]
    | cons d cs =>
      show splitWs (c :: ((d :: cs) ++ ' ' :: r)) = (c :: d :: cs) :: splitWs r
      rw [show (d :: cs) ++ ' ' :: r = d :: (cs ++ ' ' :: r) from rfl]
      rw [splitWs, if_neg (by simp [hw.2 c (by simp)])]
      rw [if_neg (by simp [hw.2 d (by simp)])]
      have ih2 := ih ⟨by simp, fun e he => hw.2 e (by simp [List.mem_cons.mp he])⟩
      rw [show (d :: cs) ++ ' ' :: r = d :: (cs ++ ' ' :: r) from rfl] at ih2
      rw [ih2]

theorem splitWs_space (c : Char) (r : List Char) (hc : isSpaceChar c = true) :
    splitWs (c :: r) = splitWs r := by
  cases r with
  | nil => simp [splitWs, hc]
  | cons d cs => rw [splitWs, if_pos hc]

theorem joinSp_cons_cons (w x : List Char) (xs : List (List Char)) :
    joinSp (w :: x :: xs) = w ++ ' ' :: joinSp (x :: xs) := rfl

theorem splitWs_joinSp : ∀ ws : List (List Char),
    (∀ w ∈ ws, goodWord w) → splitWs (joinSp ws) = ws := by
  intro ws
  induction ws with
  | nil =>
    intro _
    simp [joinSp, splitWs]
  | cons w rest ih =>
    intro h
    cases rest with
    | nil => exact splitWs_word (h w (by simp))
    | cons x xs =>
      rw [joinSp_cons_cons, splitWs_word_append _ (h w (by simp))]
      rw [ih (fun v hv => h v (by simp [hv]))]

theorem splitWs_good : ∀ (l : List Char), ∀ w ∈ splitWs l, goodWord w := by
  intro l
  induction l using splitWs.induct with
  | case1 => simp [splitWs]
  | case2 c hc => simp [splitWs, hc]
  | case3 c hc =>
    intro w hw
    rw [splitWs, if_neg hc] at hw
    rcases List.mem_singleton.mp hw with rfl
    exact ⟨by simp, by intro e he; rcases List.mem_singleton.mp he with rfl; simpa using hc⟩
  | case4 c d cs hc ih =>
    intro w hw
    rw [splitWs, if_pos hc] at hw
    exact ih w hw
  | case5 c d cs hc hd ih =>
    intro w hw
    rw [splitWs, if_neg hc, if_pos hd] at hw
    rcases List.mem_cons.mp hw with rfl | hmem
    · exact ⟨by simp, by intro e he; rcases List.mem_singleton.mp he with rfl; simpa using hc⟩
    · exact ih w hmem
  | case6 c d cs hc hd heq ih =>
    intro w hw
    rw [splitWs, if_neg hc, if_neg hd, heq] at hw
    rcases List.mem_singleton.mp hw with rfl
    exact ⟨by simp, by intro e he; rcases List.mem_singleton.mp he with rfl; simpa using hc⟩
  | case7 c d cs hc hd w ws heq ih =>
    intro v hv
    rw [splitWs, if_neg hc, if_neg hd, heq] at hv
    rcases List.mem_cons.mp hv with rfl | hmem
    · have hwgood := ih w (heq.symm ▸ List.mem_cons_self w ws)
      refine ⟨by simp, ?_⟩
      intro e he
      rcases List.mem_cons.mp he with rfl | he2
      · simpa using hc
      · exact hwgood.2 e he2
    · exact ih v (heq.symm ▸ List.mem_cons_of_mem w hmem)

theorem joinSp_append_single (zs : List (List Char)) (y : List Char) (h : zs ≠ []) :
    joinSp (zs ++ [y]) = joinSp zs ++ ' ' :: y := by
  induction zs with
  | nil => exact absurd rfl h
  | cons z zs' ih =>
    cases zs' with
    | nil => rfl
    | cons z' zs'' =>
      show joinSp (z :: ((z' :: zs'') ++ [y])) = (z ++ ' ' :: joinSp (z' :: zs'')) ++ ' ' :: y
      rw [show (z' :: zs'') ++ [y] = z' :: (zs'' ++ [y]) from rfl, joinSp_cons_cons]
      rw [show z' :: (zs'' ++ [y]) = (z' :: zs'') ++ [y] from rfl]
      rw [ih (by simp)]
      simp

theorem reverse_joinSp (ws : List (List Char)) :
    (joinSp ws).reverse = joinSp ((ws.map List.reverse).reverse) := by
  induction ws with
  | nil => rfl
  | cons w rest ih =>
    cases rest with
    | nil => rfl
    | cons x xs =>
      calc (joinSp (w :: x :: xs)).reverse
          = (w ++ ' ' :: joinSp (x :: xs)).reverse := by rw [joinSp_cons_cons]
        _ = (joinSp (x :: xs)).reverse ++ ' ' :: w.reverse := by simp
        _ = joinSp (((x :: xs).map List.reverse).reverse) ++ ' ' :: w.reverse := by rw [ih]
        _ = joinSp (((x :: xs).map List.reverse).reverse ++ [w.reverse]) := by
            rw [joinSp_append_single _ _ (by simp)]
        _ = joinSp (((w :: x :: xs).map List.reverse).reverse) := by simp

theorem dropWhile_joinSp (ws : List (List Char)) (h : ∀ w ∈ ws, goodWord w) :
    (joinSp ws).dropWhile isSpaceChar = joinSp ws := by
  cases ws with
  | nil => rfl
  | cons w rest =>
    obtain ⟨hne, hsp⟩ := h w (by simp)
    cases w with
    | nil => exact absurd rfl hne
    | cons c cs =>
      have hc : isSpaceChar c = false := hsp c (by simp)
      cases rest with
      | nil =>
        show (c :: cs).dropWhile isSpaceChar = c :: cs
        rw [List.dropWhile_cons_of_neg (by simp [hc])]
      | cons x xs =>
        rw [joinSp_cons_cons, List.cons_append]
        rw [List.dropWhile_cons_of_neg (by simp [hc])]

theorem goodWord_reverse {w : List Char} (h : goodWord w) : goodWord w.reverse := by
  refine ⟨by simp [h.1], ?_⟩
  intro c hc
  exact h.2 c (List.mem_reverse.mp hc)

theorem pystrip_joinSp (ws : List (List Char)) (h : ∀ w ∈ ws, goodWord w) :
    pystrip (joinSp ws) = joinSp ws := by
  unfold pystrip
  rw [dropWhile_joinSp ws h, reverse_joinSp ws]
  rw [dropWhile_joinSp _ ?hgood]
  case hgood =>
    intro w hw
    rw [List.mem_reverse, List.mem_map] at hw
    obtain ⟨v, hv, rfl⟩ := hw
    exact goodWord_reverse (h v hv)
  rw [← reverse_joinSp ws, List.reverse_reverse]

theorem lowerStr_joinSp (ws : List (List Char)) :
    lowerStr (joinSp ws) = joinSp (ws.map lowerStr) := by
  induction ws with
  | nil => rfl
  | cons w rest ih =>
    cases rest with
    | nil => rfl
    | cons x xs =>
      rw [joinSp_cons_cons, List.map_cons]
      rw [show ((lowerStr w) :: (x :: xs).map lowerStr) =
        (lowerStr w) :: (x.map Char.toLower) :: (xs.map lowerStr) from rfl]
      rw [joinSp_cons_cons]
      show (w ++ ' ' :: joinSp (x :: xs)).map Char.toLower = _
      rw [List.map_append, List.map_cons]
      rw [show Char.toLower ' ' = ' ' from by decide]
      rw [List.map_cons] at ih
      exact congrArg _ (congrArg _ ih)

theorem canonTitle_idem (l : List Char) : canonTitle (canonTitle l) = canonTitle l := by
  unfold canonTitle
  have hgood : ∀ w ∈ splitWs (pystrip l), goodWord w := splitWs_good (pystrip l)
  set ws := splitWs (pystrip l) with hws
  have hgood2 : ∀ w ∈ ws.map lowerStr, goodWord w := by
    intro w hw
    rw [List.mem_map] at hw
    obtain ⟨v, hv, rfl⟩ := hw
    exact goodWord_lowerStr (hgood v hv)
  rw [lowerStr_joinSp ws]
  rw [pystrip_joinSp _ hgood2, splitWs_joinSp _ hgood2]
  rw [lowerStr_joinSp]
  congr 1
  rw [List.map_map]
  apply List.map_congr_left
  intro w _
  exact lowerStr_idem w

/-- Claim C9: `canonTitle` (src/utils.py lines 32-34) is total by construction,
idempotent, and case/whitespace-insensitive: it collapses whitespace runs,
trims, and lower-cases, so `canonTitle "  Buy   Milk "` equals
`canonTitle "buy milk"`. -/
theorem canonTitle_idempotent_and_insensitive :
    (∀ s : String, canonTitleS (canonTitleS s) = canonTitleS s) ∧
    canonTitleS "  Buy   Milk " = canonTitleS "buy milk" := by
  constructor
  · intro s
    show (⟨canonTitle (String.data ⟨canonTitle s.data⟩)⟩ : String) = _
    exact congrArg String.mk (canonTitle_idem s.data)
  · decide

/-! ## Association-list lemmas (Python dict model) -/

theorem alookup_aset_self {κ α : Type} [DecidableEq κ] (l : List (κ × α)) (k : κ) (v : α) :
    alookup (aset l k v) k = some v := by
  induction l with
  | nil => simp [aset, alookup]
  | cons p rest ih =>
    obtain ⟨k', w⟩ := p
    by_cases h : k' = k
    · subst h
      simp [aset, alookup]
    · simp [aset, alookup, h, ih]

theorem alookup_aerase_ne {κ α : Type} [DecidableEq κ] (l : List (κ × α)) (k u : κ)
    (h : u ≠ k) : alookup (aerase l k) u = alookup l u := by
  induction l with
  | nil => simp [aerase]
  | cons p rest ih =>
    obtain ⟨k', w⟩ := p
    by_cases hk : k' = k
    · subst hk
      rw [aerase, if_pos rfl, alookup, if_neg (fun hh => h hh.symm)]
    · rw [aerase, if_neg hk, alookup, alookup]
      by_cases hu : k' = u
      · rw [if_pos hu, if_pos hu]
      · rw [if_neg hu, if_neg hu]
        exact ih

theorem alookup_eq_none_of_not_mem_keys {κ α : Type} [DecidableEq κ]
    (l : List (κ × α)) (k : κ) (h : k ∉ l.map Prod.fst) : alookup l k = none := by
  induction l with
  | nil => rfl
  | cons p rest ih =>
    obtain ⟨k', w⟩ := p
    simp only [List.map_cons, List.mem_cons] at h
    push_neg at h
    rw [alookup, if_neg (fun hh => h.1 hh.symm)]
    exact ih h.2

theorem alookup_aerase_self_nodup {κ α : Type} [DecidableEq κ] (l : List (κ × α))
    (hnd : (l.map Prod.fst).Nodup) (k : κ) : alookup (aerase l k) k = none := by
  induction l with
  | nil => rfl
  | cons p rest ih =>
    obtain ⟨k', w⟩ := p
    simp only [List.map_cons, List.nodup_cons] at hnd
    by_cases hk : k' = k
    · subst hk
      simp only [aerase, if_pos rfl]
      exact alookup_eq_none_of_not_mem_keys rest k' hnd.1
    · simp [aerase, alookup, hk, ih hnd.2]

theorem alookup_none_aerase {κ α : Type} [DecidableEq κ] (l : List (κ × α)) (k u : κ)
    (h : alookup l u = none) : alookup (aerase l k) u = none := by
  induction l with
  | nil => rfl
  | cons p rest ih =>
    obtain ⟨k', w⟩ := p
    by_cases hu : k' = u
    · subst hu
      simp [alookup] at h
    · simp only [alookup, if_neg hu] at h
      by_cases hk : k' = k
      · subst hk
        simp [aerase, h]
      · simp [aerase, alookup, hk, hu, ih h]

theorem aerase_keys_sublist {κ α : Type} [DecidableEq κ] (l : List (κ × α)) (k : κ) :
    ((aerase l k).map Prod.fst).Sublist (l.map Prod.fst) := by
  induction l with
  | nil => simp [aerase]
  | cons p rest ih =>
    obtain ⟨k', w⟩ := p
    by_cases hk : k' = k
    · simp only [aerase, if_pos hk, List.map_cons]
      exact (List.sublist_cons_self k' _)
    · simp only [aerase, if_neg hk, List.map_cons]
      exact ih.cons₂ k'

theorem alookup_some_mem {κ α : Type} [DecidableEq κ] {l : List (κ × α)} {u : κ} {v : α}
    (h : alookup l u = some v) : (u, v) ∈ l := by
  induction l with
  | nil => simp [alookup] at h
  | cons p rest ih =>
    obtain ⟨k', w⟩ := p
    rw [alookup] at h
    by_cases hk : k' = u
    · rw [if_pos hk] at h
      subst hk
      obtain rfl : w = v := Option.some.inj h
      exact List.mem_cons_self _ _
    · rw [if_neg hk] at h
      exact List.mem_cons_of_mem _ (ih h)

theorem mem_alookup_nodup {κ α : Type} [DecidableEq κ] {l : List (κ × α)} {u : κ} {v : α}
    (hnd : (l.map Prod.fst).Nodup) (h : (u, v) ∈ l) : alookup l u = some v := by
  induction l with
  | nil => simp at h
  | cons p rest ih =>
    obtain ⟨k', w⟩ := p
    simp only [List.map_cons, List.nodup_cons] at hnd
    rcases List.mem_cons.mp h with heq | hmem
    · have h1 : u = k' := congrArg Prod.fst heq
      have h2 : v = w := congrArg Prod.snd heq
      subst h1
      subst h2
      rw [alookup, if_pos rfl]
    · have hne : k' ≠ u := by
        intro hk
        subst hk
        exact hnd.1 (List.mem_map.mpr ⟨(k', v), hmem, rfl⟩)
      rw [alookup, if_neg hne]
      exact ih hnd.2 hmem

theorem alookup_foldl_aerase_not_mem {κ α : Type} [DecidableEq κ] :
    ∀ (rs : List κ) (l : List (κ × α)) (u : κ), u ∉ rs →
      alookup (rs.foldl aerase l) u = alookup l u := by
  intro rs
  induction rs with
  | nil => intro l u _; rfl
  | cons r rs' ih =>
    intro l u hu
    simp only [List.mem_cons] at hu
    push_neg at hu
    rw [List.foldl_cons, ih _ _ hu.2, alookup_aerase_ne _ _ _ hu.1]

theorem alookup_none_foldl_aerase {κ α : Type} [DecidableEq κ] :
    ∀ (rs : List κ) (l : List (κ × α)) (u : κ), alookup l u = none →
      alookup (rs.foldl aerase l) u = none := by
  intro rs
  induction rs with
  | nil => intro l u h; exact h
  | cons r rs' ih =>
    intro l u h
    rw [List.foldl_cons]
    exact ih _ _ (alookup_none_aerase _ _ _ h)

theorem alookup_foldl_aerase_mem {κ α : Type} [DecidableEq κ] :
    ∀ (rs : List κ) (l : List (κ × α)) (u : κ), (l.map Prod.fst).Nodup → u ∈ rs →
      alookup (rs.foldl aerase l) u = none := by
  intro rs
  induction rs with
  | nil => intro l u _ h; simp at h
  | cons r rs' ih =>
    intro l u hnd hu
    rw [List.foldl_cons]
    rcases List.mem_cons.mp hu with rfl | hmem
    · exact alookup_none_foldl_aerase _ _ _ (alookup_aerase_self_nodup l hnd u)
    · exact ih _ _ ((aerase_keys_sublist l r).nodup hnd) hmem

/-! ## Change-detection lemmas -/

theorem detectChanges_snd (task : GTask) (states : TaskStates) :
    (detectChanges task states).2 = aset states task.id (observedOf task) := rfl

theorem detect_twice_empty (task : GTask) (states : TaskStates) :
    (detectChanges task (detectChanges task states).2).1 = {} := by
  rw [detectChanges_snd]
  simp only [detectChanges, alookup_aset_self]
  by_cases hc : task.status.getD "needsAction" = "completed"
  · simp [observedOf, hc, pyTruthy]
  · simp [observedOf, hc]

/-- Claim C6: calling `detectChanges` twice in a row — the second call against
the prior state as updated by the first — yields an empty changeset, because
`detectChanges` unconditionally overwrites the stored observed state with the
task's current fields (status, due, title, updated) even when the computed
changeset is empty. -/
theorem detect_is_idempotent_after_state_update (task : GTask) (states : TaskStates) :
    (detectChanges task (detectChanges task states).2).1 = {} ∧
    (detectChanges task states).2 = aset states task.id (observedOf task) :=
  ⟨detect_twice_empty task states, detectChanges_snd task states⟩

/-- Claim C1: completion rules of `detectChanges`: a `completed` cloud task
whose prior observed status is not `completed` (including no prior state)
yields `{completed: true, mark_for_deletion: true}`; a `needsAction` cloud
task whose prior observed status is `completed` yields `{completed: false}`
with `mark_for_deletion` never set. -/
theorem detect_completion_and_reopen (task : GTask) (states : TaskStates) :
    (task.status = some "completed" →
      (alookup states task.id).map (fun st => st.status) ≠ some "completed" →
      (detectChanges task states).1.completed = some "true" ∧
      (detectChanges task states).1.mark_for_deletion = true) ∧
    (task.status.getD "needsAction" = "needsAction" →
      (alookup states task.id).map (fun st => st.status) = some "completed" →
      (detectChanges task states).1.completed = some "false" ∧
      (detectChanges task states).1.mark_for_deletion = false) := by
  constructor
  · intro h1 h2
    simp [detectChanges, h1, h2]
    refine ⟨?_, ?_⟩ <;> (split <;> (try split) <;> (try split) <;> rfl)
  · intro h1 h2
    simp [detectChanges, h1, h2]
    refine ⟨?_, ?_⟩ <;> (split <;> (try split) <;> (try split) <;> rfl)

/-! ## Date-conversion lemmas -/

theorem digit_ne_plus {c : Char} (h : isDigitC c = true) : c ≠ '+' := by
  intro heq
  subst heq
  exact absurd h (by decide)

theorem pyISOValid_shape {m : List Char} (h : pyISOValidL m = true) :
    ∃ y1 y2 y3 y4 m1 m2 a b rest,
      m = y1 :: y2 :: y3 :: y4 :: '-' :: m1 :: m2 :: '-' :: a :: b :: rest ∧
      isDigitC y1 = true ∧ isDigitC y2 = true ∧ isDigitC y3 = true ∧
      isDigitC y4 = true ∧ isDigitC m1 = true ∧ isDigitC m2 = true ∧
      isDigitC a = true ∧ isDigitC b = true := by
  unfold pyISOValidL at h
  split at h
  · rename_i y1 y2 y3 y4 s1 m1 m2 s2 a b rest
    have hs1 : s1 = '-' := by
      by_contra hne
      simp [hne] at h
    have hs2 : s2 = '-' := by
      by_contra hne
      simp [hne] at h
    have hd1 : isDigitC y1 = true := by
      by_contra hne
      rw [Bool.not_eq_true] at hne
      simp [hne] at h
    have hd2 : isDigitC y2 = true := by
      by_contra hne
      rw [Bool.not_eq_true] at hne
      simp [hne] at h
    have hd3 : isDigitC y3 = true := by
      by_contra hne
      rw [Bool.not_eq_true] at hne
      simp [hne] at h
    have hd4 : isDigitC y4 = true := by
      by_contra hne
      rw [Bool.not_eq_true] at hne
      simp [hne] at h
    have hd5 : isDigitC m1 = true := by
      by_contra hne
      rw [Bool.not_eq_true] at hne
      simp [hne] at h
    have hd6 : isDigitC m2 = true := by
      by_contra hne
      rw [Bool.not_eq_true] at hne
      simp [hne] at h
    have hd7 : isDigitC a = true := by
      by_contra hne
      rw [Bool.not_eq_true] at hne
      simp [hne] at h
    have hd8 : isDigitC b = true := by
      by_contra hne
      rw [Bool.not_eq_true] at hne
      simp [hne] at h
    subst hs1
    subst hs2
    exact ⟨y1, y2, y3, y4, m1, m2, a, b, rest, rfl, hd1, hd2, hd3, hd4, hd5, hd6, hd7, hd8⟩
  · exact absurd h (by simp)

theorem replaceZ_take_eq_aux :
    ∀ (n : Nat) (l : List Char), (∀ c ∈ (replaceZ l).take n, c ≠ '+') →
      (replaceZ l).take n = l.take n := by
  intro n
  induction n with
  | zero => simp
  | succ n ih =>
    intro l hl
    cases l with
    | nil => simp [replaceZ]
    | cons c cs =>
      by_cases hz : c = 'Z'
      · subst hz
        exfalso
        refine hl '+' ?_ rfl
        rw [replaceZ, if_pos rfl]
        simp [List.take_succ_cons]
      · rw [replaceZ, if_neg hz] at hl ⊢
        rw [List.take_succ_cons, List.take_succ_cons]
        have hih := ih cs (fun d hd hplus =>
          hl d (by rw [List.take_succ_cons]; exact List.mem_cons_of_mem c hd) hplus)
        rw [hih]

theorem replaceZ_take10_of_valid {l : List Char}
    (hv : pyISOValidL (replaceZ l) = true) :
    (replaceZ l).take 10 = l.take 10 ∧ (replaceZ l).take 10 ≠ [] := by
  obtain ⟨y1, y2, y3, y4, m1, m2, a, b, rest, heq, hd1, hd2, hd3, hd4, hd5, hd6,
    hd7, hd8⟩ := pyISOValid_shape hv
  have htake : (replaceZ l).take 10 =
      [y1, y2, y3, y4, '-', m1, m2, '-', a, b] := by
    rw [heq]
    rfl
  constructor
  · apply replaceZ_take_eq_aux
    intro c hc
    rw [htake] at hc
    simp only [List.mem_cons, List.not_mem_nil, or_false] at hc
    rcases hc with rfl | rfl | rfl | rfl | rfl | rfl | rfl | rfl | rfl | rfl
    · exact digit_ne_plus hd1
    · exact digit_ne_plus hd2
    · exact digit_ne_plus hd3
    · exact digit_ne_plus hd4
    · decide
    · exact digit_ne_plus hd5
    · exact digit_ne_plus hd6
    · decide
    · exact digit_ne_plus hd7
    · exact digit_ne_plus hd8
  · rw [htake]
    simp

theorem convert_valid {d : String} (hne : d ≠ "")
    (hv : pyISOValidL (replaceZ d.data) = true) :
    convertGoogleDateToThings d = ⟨d.data.take 10⟩ ∧
    convertGoogleDateToThings d ≠ "" := by
  obtain ⟨hpre, hnonnil⟩ := replaceZ_take10_of_valid hv
  have hc : convertGoogleDateToThings d = ⟨(replaceZ d.data).take 10⟩ := by
    rw [convertGoogleDateToThings, if_neg hne]
    simp only [hv, if_pos]
  refine ⟨by rw [hc, hpre], ?_⟩
  rw [hc]
  intro hcontra
  apply hnonnil
  have : ((⟨(replaceZ d.data).take 10⟩ : String)).data = ("" : String).data :=
    congrArg String.data hcontra
  simpa using this

/-- Claim C7: deadline rules of `detectChanges`: when the task's `due` differs
from the recorded one and is a present well-formed RFC-3339 timestamp, the
changeset carries its literal date part (first ten characters, no timezone
shifting); when the new `due` is absent it carries the empty string (clear
the deadline); when the values are equal no `deadline` key is emitted. -/
theorem detect_deadline_rules (task : GTask) (states : TaskStates) :
    (∀ d : String, task.due = some d → d ≠ "" →
      pyISOValidL (replaceZ d.data) = true →
      task.due ≠ (alookup states task.id).bind (fun st => st.due) →
      (detectChanges task states).1.deadline = some ⟨d.data.take 10⟩) ∧
    (task.due = none →
      (alookup states task.id).bind (fun st => st.due) ≠ none →
      (detectChanges task states).1.deadline = some "") ∧
    (task.due = (alookup states task.id).bind (fun st => st.due) →
      (detectChanges task states).1.deadline = none) := by
  refine ⟨?_, ?_, ?_⟩
  · intro d hdue hne hv hdiff
    obtain ⟨hcv, hcne⟩ := convert_valid hne hv
    have hdiff2 : (some d : Option String) ≠
        (alookup states task.id).bind (fun st => st.due) := hdue ▸ hdiff
    have htruthy : pyTruthy (some d) = true := by
      simpa [pyTruthy] using hne
    simp only [detectChanges, hdue, Option.getD_some]
    rw [if_pos hdiff2, if_pos htruthy, if_pos hcne]
    simp [hcv]
  · intro hdue hprev
    have hcond : (none : Option String) ≠
        (alookup states task.id).bind (fun st => st.due) := fun h => hprev h.symm
    simp only [detectChanges, hdue]
    rw [if_pos hcond, if_neg (by simp [pyTruthy])]
  · intro heq
    simp only [detectChanges]
    rw [if_neg (not_not_intro heq)]
    split <;> (try split) <;> rfl

/-! ## Reconciliation-driver lemmas -/

theorem mfd_not_isEmpty {c : Changeset} (h : c.mark_for_deletion = true) :
    c.isEmpty = false := by
  simp [Changeset.isEmpty, h]

/-- Claim C10: within one loop iteration of `syncList`, `detectChanges`
overwrites the observed-state entry before the Things update is attempted;
hence when the update reports failure (or no update is needed) the state
already records the task's current fields, and running `detectChanges` again
over the unchanged cloud task emits nothing. -/
theorem observed_state_written_before_update (env : Env) (listId : String)
    (st : SyncSt) (task : GTask) (uuid : String)
    (hid : pyTruthy task.id = true)
    (huuid : findThingsUUID st.task_mapping (task.id.getD "") = some uuid)
    (hfail : (detectChanges task st.task_states).1.isEmpty = true ∨
      (updateThingsTask env uuid (stripMfd (detectChanges task st.task_states).1)).1 = false) :
    alookup (syncListStep env listId st task).task_states task.id =
      some (observedOf task) ∧
    (detectChanges task (syncListStep env listId st task).task_states).1 = {} := by
  have hstep : (syncListStep env listId st task).task_states =
      (detectChanges task st.task_states).2 := by
    by_cases hemp : (detectChanges task st.task_states).1.isEmpty = true
    · simp [syncListStep, hid, huuid, hemp]
    · have hupd : (updateThingsTask env uuid
          (stripMfd (detectChanges task st.task_states).1)).1 = false :=
        hfail.resolve_left hemp
      simp only [Bool.not_eq_true] at hemp
      simp [syncListStep, hid, huuid, hemp, hupd]
  rw [hstep, detectChanges_snd]
  exact ⟨alookup_aset_self _ _ _, by
    rw [← detectChanges_snd]
    exact detect_twice_empty task st.task_states⟩

/-- Claim C4: in one loop iteration of `syncList` over a task whose changeset
sets `mark_for_deletion`: the Things update is issued first, and the Google
delete is issued only when that update reported success; when the update
reports failure the Google task is not deleted and the mapping entry stays;
when the delete itself fails the mapping entry also stays. -/
theorem things_update_precedes_google_delete (env : Env) (listId : String)
    (st : SyncSt) (task : GTask) (uuid : String)
    (hid : pyTruthy task.id = true)
    (huuid : findThingsUUID st.task_mapping (task.id.getD "") = some uuid)
    (hmfd : (detectChanges task st.task_states).1.mark_for_deletion = true)
    (hauth : env.authOk = true) :
    (env.openUpdateOk uuid (stripMfd (detectChanges task st.task_states).1) = false →
      (syncListStep env listId st task).effects = st.effects ++
        [Effect.updateThings uuid (stripMfd (detectChanges task st.task_states).1)] ∧
      (syncListStep env listId st task).task_mapping = st.task_mapping) ∧
    (env.openUpdateOk uuid (stripMfd (detectChanges task st.task_states).1) = true →
      (syncListStep env listId st task).effects = st.effects ++
        [Effect.updateThings uuid (stripMfd (detectChanges task st.task_states).1),
          Effect.deleteGoogle listId (task.id.getD "")] ∧
      (env.deleteGoogleOk listId (task.id.getD "") = false →
        (syncListStep env listId st task).task_mapping = st.task_mapping)) := by
  have hupd : updateThingsTask env uuid (stripMfd (detectChanges task st.task_states).1) =
      (env.openUpdateOk uuid (stripMfd (detectChanges task st.task_states).1),
        [Effect.updateThings uuid (stripMfd (detectChanges task st.task_states).1)]) := by
    rw [updateThingsTask, if_neg (by simp [hauth])]
  constructor
  · intro hfalse
    simp [syncListStep, hid, huuid, mfd_not_isEmpty hmfd, hupd, hfalse]
  · intro htrue
    simp [syncListStep, hid, huuid, mfd_not_isEmpty hmfd, hupd, htrue,
      deleteGoogleTask, hmfd]
    by_cases hdel : env.deleteGoogleOk listId (task.id.getD "") = true
    · simp [hdel]
    · simp only [Bool.not_eq_true] at hdel
      simp [hdel]

/-! ## Orphan-pruning lemmas -/

theorem pruneStep_effects_mono (env : Env) (live : List String) (acc : PruneSt)
    (entry : String × MappingEntry) (e : Effect) (h : e ∈ acc.effects) :
    e ∈ (pruneStep env live acc entry).effects := by
  rw [pruneStep]
  split
  · split
    · dsimp only
      split
      · simp [h]
      · simp [h]
    · exact h
  · exact h

theorem pruneStep_toRemove_mono (env : Env) (live : List String) (acc : PruneSt)
    (entry : String × MappingEntry) (u : String) (h : u ∈ acc.tasks_to_remove) :
    u ∈ (pruneStep env live acc entry).tasks_to_remove := by
  rw [pruneStep]
  split
  · split
    · dsimp only
      split
      · simp [h]
      · simp [h]
    · exact h
  · exact h

theorem pruneStep_effects_cases (env : Env) (live : List String) (acc : PruneSt)
    (entry : String × MappingEntry) (e : Effect)
    (h : e ∈ (pruneStep env live acc entry).effects) :
    e ∈ acc.effects ∨
      (pyTruthy entry.2.google_id = true ∧
       live.contains (entry.2.google_id.getD "") = false ∧
       pyTruthy entry.2.last_synced = true ∧ env.authOk = true ∧
       e = Effect.cancelThings entry.1) := by
  rw [pruneStep, deleteThingsTask] at h
  split at h
  · rename_i hcond
    simp only [Bool.and_eq_true, Bool.not_eq_true'] at hcond
    split at h
    · rename_i hsync
      split at h
      · simp at h
        exact Or.inl h
      · rename_i hauth
        simp only [Bool.not_eq_false] at hauth
        dsimp only at h
        split at h <;>
        · simp only [List.mem_append, List.mem_singleton] at h
          rcases h with h | h
          · exact Or.inl h
          · exact Or.inr ⟨hcond.1, hcond.2, hsync, hauth, h⟩
    · exact Or.inl h
  · exact Or.inl h

theorem pruneStep_toRemove_cases (env : Env) (live : List String) (acc : PruneSt)
    (entry : String × MappingEntry) (u : String)
    (h : u ∈ (pruneStep env live acc entry).tasks_to_remove) :
    u ∈ acc.tasks_to_remove ∨
      (u = entry.1 ∧ pyTruthy entry.2.last_synced = true) := by
  rw [pruneStep] at h
  split at h
  · split at h
    · rename_i hsync
      dsimp only at h
      split at h
      · simp only [List.mem_append, List.mem_singleton] at h
        rcases h with h | h
        · exact Or.inl h
        · exact Or.inr ⟨h, hsync⟩
      · exact Or.inl h
    · exact Or.inl h
  · exact Or.inl h

theorem pruneStep_emits_cancel (env : Env) (live : List String) (acc : PruneSt)
    (u : String) (m : MappingEntry)
    (h1 : pyTruthy m.google_id = true)
    (h2 : live.contains (m.google_id.getD "") = false)
    (h3 : pyTruthy m.last_synced = true) (h4 : env.authOk = true) :
    Effect.cancelThings u ∈ (pruneStep env live acc (u, m)).effects := by
  have h2m : m.google_id.getD "" ∉ live := by simpa using h2
  rw [pruneStep, deleteThingsTask]
  simp [h1, h2m, h3, h4]
  try (split <;> simp)

theorem pruneStep_collects (env : Env) (live : List String) (acc : PruneSt)
    (u : String) (m : MappingEntry)
    (h1 : pyTruthy m.google_id = true)
    (h2 : live.contains (m.google_id.getD "") = false)
    (h3 : pyTruthy m.last_synced = true) (h4 : env.authOk = true)
    (h5 : env.openCancelOk u = true) :
    u ∈ (pruneStep env live acc (u, m)).tasks_to_remove := by
  have h2m : m.google_id.getD "" ∉ live := by simpa using h2
  rw [pruneStep, deleteThingsTask]
  simp [h1, h2m, h3, h4, h5]

theorem pruneFold_effects_mono (env : Env) (live : List String) :
    ∀ (entries : List (String × MappingEntry)) (acc : PruneSt) (e : Effect),
      e ∈ acc.effects → e ∈ (entries.foldl (pruneStep env live) acc).effects := by
  intro entries
  induction entries with
  | nil => intro acc e h; exact h
  | cons p rest ih =>
    intro acc e h
    exact ih _ _ (pruneStep_effects_mono env live acc p e h)

theorem pruneFold_toRemove_mono (env : Env) (live : List String) :
    ∀ (entries : List (String × MappingEntry)) (acc : PruneSt) (u : String),
      u ∈ acc.tasks_to_remove →
      u ∈ (entries.foldl (pruneStep env live) acc).tasks_to_remove := by
  intro entries
  induction entries with
  | nil => intro acc u h; exact h
  | cons p rest ih =>
    intro acc u h
    exact ih _ _ (pruneStep_toRemove_mono env live acc p u h)

theorem pruneFold_effects_cases (env : Env) (live : List String) :
    ∀ (entries : List (String × MappingEntry)) (acc : PruneSt) (e : Effect),
      e ∈ (entries.foldl (pruneStep env live) acc).effects →
      e ∈ acc.effects ∨
        ∃ u m, (u, m) ∈ entries ∧ pyTruthy m.google_id = true ∧
          live.contains (m.google_id.getD "") = false ∧
          pyTruthy m.last_synced = true ∧ env.authOk = true ∧
          e = Effect.cancelThings u := by
  intro entries
  induction entries with
  | nil => intro acc e h; exact Or.inl h
  | cons p rest ih =>
    intro acc e h
    rcases ih _ _ h with hacc | ⟨u, m, hmem, hconds⟩
    · rcases pruneStep_effects_cases env live acc p e hacc with h1 | h2
      · exact Or.inl h1
      · exact Or.inr ⟨p.1, p.2, by simp, h2.1, h2.2.1, h2.2.2.1, h2.2.2.2.1, h2.2.2.2.2⟩
    · exact Or.inr ⟨u, m, List.mem_cons_of_mem p hmem, hconds⟩

theorem pruneFold_toRemove_cases (env : Env) (live : List String) :
    ∀ (entries : List (String × MappingEntry)) (acc : PruneSt) (u : String),
      u ∈ (entries.foldl (pruneStep env live) acc).tasks_to_remove →
      u ∈ acc.tasks_to_remove ∨
        ∃ m, (u, m) ∈ entries ∧ pyTruthy m.last_synced = true := by
  intro entries
  induction entries with
  | nil => intro acc u h; exact Or.inl h
  | cons p rest ih =>
    intro acc u h
    rcases ih _ _ h with hacc | ⟨m, hmem, hconds⟩
    · rcases pruneStep_toRemove_cases env live acc p u hacc with h1 | ⟨rfl, h2⟩
      · exact Or.inl h1
      · exact Or.inr ⟨p.2, by simp, h2⟩
    · exact Or.inr ⟨m, List.mem_cons_of_mem p hmem, hconds⟩

theorem pruneFold_emits_cancel (env : Env) (live : List String) :
    ∀ (entries : List (String × MappingEntry)) (acc : PruneSt) (u : String)
      (m : MappingEntry), (u, m) ∈ entries →
      pyTruthy m.google_id = true →
      live.contains (m.google_id.getD "") = false →
      pyTruthy m.last_synced = true → env.authOk = true →
      Effect.cancelThings u ∈ (entries.foldl (pruneStep env live) acc).effects := by
  intro entries
  induction entries with
  | nil => intro acc u m h; simp at h
  | cons p rest ih =>
    intro acc u m hmem h1 h2 h3 h4
    rcases List.mem_cons.mp hmem with heq | hmem2
    · subst heq
      exact pruneFold_effects_mono env live rest _ _
        (pruneStep_emits_cancel env live acc u m h1 h2 h3 h4)
    · exact ih _ u m hmem2 h1 h2 h3 h4

theorem pruneFold_collects (env : Env) (live : List String) :
    ∀ (entries : List (String × MappingEntry)) (acc : PruneSt) (u : String)
      (m : MappingEntry), (u, m) ∈ entries →
      pyTruthy m.google_id = true →
      live.contains (m.google_id.getD "") = false →
      pyTruthy m.last_synced = true → env.authOk = true →
      env.openCancelOk u = true →
      u ∈ (entries.foldl (pruneStep env live) acc).tasks_to_remove := by
  intro entries
  induction entries with
  | nil => intro acc u m h; simp at h
  | cons p rest ih =>
    intro acc u m hmem h1 h2 h3 h4 h5
    rcases List.mem_cons.mp hmem with heq | hmem2
    · subst heq
      exact pruneFold_toRemove_mono env live rest _ _
        (pruneStep_collects env live acc u m h1 h2 h3 h4 h5)
    · exact ih _ u m hmem2 h1 h2 h3 h4 h5

/-- Claim C3: orphan pruning in `syncAll`: a provisional mapping entry (no
truthy `last_synced`) is never removed by the liveness check and never
receives a cancel effect, even when its `google_id` is absent from the
liveness set; a non-provisional entry whose truthy `google_id` is absent
from the liveness set receives a cancel effect against Things, and when that
effect reports success its mapping entry is dropped. -/
theorem orphan_pruning_provisional_and_live (env : Env) (live : List String)
    (mapping : Mapping) (states : TaskStates)
    (hnd : (mapping.map Prod.fst).Nodup) :
    (∀ uuid m, alookup mapping uuid = some m →
      pyTruthy m.last_synced = false →
      alookup (pruneOrphans env live mapping states).1 uuid = some m ∧
      Effect.cancelThings uuid ∉ (pruneOrphans env live mapping states).2.effects) ∧
    (∀ uuid m, alookup mapping uuid = some m →
      pyTruthy m.google_id = true →
      live.contains (m.google_id.getD "") = false →
      pyTruthy m.last_synced = true → env.authOk = true →
      Effect.cancelThings uuid ∈ (pruneOrphans env live mapping states).2.effects ∧
      (env.openCancelOk uuid = true →
        alookup (pruneOrphans env live mapping states).1 uuid = none)) := by
  constructor
  · intro uuid m hlook hprov
    have hnotrem : uuid ∉ ((mapping.foldl (pruneStep env live)
        { task_states := states, effects := [], cancelled := 0,
          tasks_to_remove := [] }).tasks_to_remove) := by
      intro hmem
      rcases pruneFold_toRemove_cases env live mapping _ uuid hmem with h | ⟨m', hm', hsync⟩
      · simp at h
      · have := mem_alookup_nodup hnd hm'
        rw [hlook] at this
        obtain rfl : m = m' := Option.some.inj this
        rw [hprov] at hsync
        exact absurd hsync (by simp)
    constructor
    · rw [pruneOrphans]
      simp only
      rw [alookup_foldl_aerase_not_mem _ _ _ hnotrem]
      exact hlook
    · intro hmem
      rcases pruneFold_effects_cases env live mapping _ _ hmem with h | ⟨u, m', hm', _, _, hsync, _, heq⟩
      · simp at h
      · obtain rfl : u = uuid := by
          exact (Effect.cancelThings.inj heq).symm
        have := mem_alookup_nodup hnd hm'
        rw [hlook] at this
        obtain rfl : m = m' := Option.some.inj this
        rw [hprov] at hsync
        exact absurd hsync (by simp)
  · intro uuid m hlook h1 h2 h3 h4
    have hmem : (uuid, m) ∈ mapping := alookup_some_mem hlook
    constructor
    · exact pruneFold_emits_cancel env live mapping _ uuid m hmem h1 h2 h3 h4
    · intro h5
      have hrem : uuid ∈ ((mapping.foldl (pruneStep env live)
          { task_states := states, effects := [], cancelled := 0,
            tasks_to_remove := [] }).tasks_to_remove) :=
        pruneFold_collects env live mapping _ uuid m hmem h1 h2 h3 h4 h5
      rw [pruneOrphans]
      simp only
      exact alookup_foldl_aerase_mem _ _ _ hnd hrem

/-! ## Identity resolution (C5) -/

/-- Claim C5, counterexample: the code's resolver has no canonical-title
fallback: on a mapping whose single entry's stored title canonicalizes to
the same key as the cloud task's title but whose `google_id` differs,
`findThingsUUID` returns `none`, while the resolver described by the spec
(`resolveSpec`) returns the entry. -/
theorem resolver_title_fallback_counterexample :
    findThingsUUID
      [("U1",
        { google_id := some "G1"
          title := some "Buy milk"
          last_synced := some "2024-01-01T00:00:00" })] "G2" = none ∧
    resolveSpec
      [("U1",
        { google_id := some "G1"
          title := some "Buy milk"
          last_synced := some "2024-01-01T00:00:00" })]
      { id := some "G2", title := some "buy  MILK", status := some "needsAction" } =
      some "U1" ∧
    canonTitleS "Buy milk" = canonTitleS "buy  MILK" := by
  refine ⟨rfl, ?_, ?_⟩ <;> decide

/-- Claim C5, amended: `findThingsUUID` looks the mapping up by the task's
cloud identifier only: it returns `none` exactly when no entry carries that
`google_id` (no title fallback exists, and no exception is raised), and the
driver then skips the task — the loop iteration leaves the pass state
completely unchanged. -/
theorem resolve_by_cloud_id_only (mapping : Mapping) (gid : String)
    (env : Env) (listId : String) (st : SyncSt) (task : GTask) :
    (findThingsUUID mapping gid = none ↔ ∀ p ∈ mapping, p.2.google_id ≠ some gid) ∧
    (pyTruthy task.id = true →
      findThingsUUID st.task_mapping (task.id.getD "") = none →
      syncListStep env listId st task = st) := by
  constructor
  · induction mapping with
    | nil => simp [findThingsUUID]
    | cons p rest ih =>
      obtain ⟨u, m⟩ := p
      by_cases h : m.google_id = some gid
      · rw [findThingsUUID, if_pos h]
        simp only [reduceCtorEq, false_iff]
        intro hall
        exact hall (u, m) (by simp) h
      · rw [findThingsUUID, if_neg h, ih]
        constructor
        · intro hall q hq
          rcases List.mem_cons.mp hq with rfl | hq2
          · exact h
          · exact hall q hq2
        · intro hall q hq
          exact hall q (List.mem_cons_of_mem _ hq)
  · intro hid hnone
    rw [syncListStep]
    rw [if_neg (by simp [hid])]
    rw [hnone]

/-! ## Cross-list deduplication (C2) -/

/-- Claim C2, counterexample: the anytime-view dedup filter checks canonical
titles only: a candidate whose stable identifier `X` is recorded in a prior
view's output (TaskID column) but whose title is new passes through
`filterAnytime` untouched. -/
theorem anytime_filter_ignores_recorded_ids :
    "X" ∈ loadExistingTaskIds [{ ItemName := "alpha", TaskID := "X" }] ∧
    filterAnytime (loadExistingTitles [{ ItemName := "alpha", TaskID := "X" }])
      [{ title := "beta", task_id := "X" }] =
      [({ title := "beta", task_id := "X" } : ExtractTask)] := by
  refine ⟨by decide, by decide⟩

/-- Claim C2, amended: the someday-view filter excludes every candidate whose
stable identifier is among the recorded TaskIDs or whose canonical title is
among the accumulated titles, regardless of the order of the input
candidates; the anytime-view filter guarantees this only for the canonical
title check. -/
theorem dedup_filters_exclude_known (rows : List CsvRow) (titles : List String)
    (tasks : List ExtractTask) (t : ExtractTask) :
    ((t.task_id ∈ loadExistingTaskIds rows ∨ canonTitleS t.title ∈ titles) →
      t ∉ filterSomeday (loadExistingTaskIds rows) titles tasks) ∧
    (canonTitleS t.title ∈ titles → t ∉ filterAnytime titles tasks) := by
  constructor
  · intro h hmem
    have hm := List.mem_filter.mp hmem
    have hpred := hm.2
    rcases h with hid | htitle
    · have hne : ¬(t.task_id = "") := by
        rw [loadExistingTaskIds] at hid
        simp only [List.mem_map, List.mem_filter] at hid
        obtain ⟨r, ⟨_, hr⟩, hrid⟩ := hid
        rw [← hrid]
        simpa using hr
      simp only [Bool.and_eq_true, Bool.not_eq_true'] at hpred
      have := hpred.1
      simp [hne, hid] at this
    · simp only [Bool.and_eq_true, Bool.not_eq_true'] at hpred
      have := hpred.2
      simp [htitle] at this
  · intro htitle hmem
    have hm := List.mem_filter.mp hmem
    have hpred := hm.2
    simp only [Bool.not_eq_true'] at hpred
    simp [htitle] at hpred

/-! ## Persistence (C8) -/

/-- Claim C8, counterexample: neither persistence helper follows the
write-temp-then-rename discipline: both `_saveTaskMapping` and
`_saveSyncState` fail the atomic-replace check because they open the target
path directly for writing and never rename anything over it. -/
theorem save_not_atomic :
    usesAtomicReplace saveTaskMappingOps MAPPING_FILE = false ∧
    usesAtomicReplace saveSyncStateOps SYNC_STATE_FILE = false := by
  decide

/-- Claim C8, amended: persisting the identity-mapping store and the
observed-state store ensures the output directory exists and then writes the
JSON directly to the target path; no temporary file and no rename are
involved, so the write is not atomic with respect to process crashes. -/
theorem save_writes_target_directly :
    saveTaskMappingOps = [FileOp.makeDirs "outputs", FileOp.writeFile MAPPING_FILE] ∧
    saveSyncStateOps = [FileOp.makeDirs "outputs", FileOp.writeFile SYNC_STATE_FILE] ∧
    usesAtomicReplace saveTaskMappingOps MAPPING_FILE = false ∧
    usesAtomicReplace saveSyncStateOps SYNC_STATE_FILE = false := by
  refine ⟨rfl, rfl, ?_, ?_⟩ <;> decide

/-! ## Witnesses: each claim theorem with hypotheses, applied at concrete
inputs -/

/-- Witness for the completion rules, at a completed task with no prior
state and a reopened task with a completed prior state. -/
theorem detect_completion_and_reopen_witness :
    (detectChanges { id := some "T1", status := some "completed" } []).1.completed =
      some "true" ∧
    (detectChanges { id := some "T1", status := some "completed" } []).1.mark_for_deletion =
      true ∧
    (detectChanges { id := some "T2", status := some "needsAction" }
      [(some "T2", { status := "completed" })]).1.completed = some "false" ∧
    (detectChanges { id := some "T2", status := some "needsAction" }
      [(some "T2", { status := "completed" })]).1.mark_for_deletion = false := by
  have h1 := (detect_completion_and_reopen
    { id := some "T1", status := some "completed" } []).1 rfl (by decide)
  have h2 := (detect_completion_and_reopen
    { id := some "T2", status := some "needsAction" }
    [(some "T2", { status := "completed" })]).2 (by decide) (by decide)
  exact ⟨h1.1, h1.2, h2.1, h2.2⟩

/-- Witness for the deadline rules: a fresh midnight-UTC RFC-3339 due date
yields its literal date part, removing a due date yields the empty string,
and an unchanged due date yields no deadline key. -/
theorem detect_deadline_rules_witness :
    (detectChanges { id := some "T1", due := some "2024-06-01T00:00:00.000Z" }
      []).1.deadline = some "2024-06-01" ∧
    (detectChanges { id := some "T2" }
      [(some "T2",
        { status := "needsAction"
          due := some "2024-06-01T00:00:00.000Z" })]).1.deadline = some "" ∧
    (detectChanges { id := some "T3", due := some "2024-06-01T00:00:00.000Z" }
      [(some "T3",
        { status := "needsAction"
          due := some "2024-06-01T00:00:00.000Z" })]).1.deadline = none := by
  have h1 := (detect_deadline_rules
    { id := some "T1", due := some "2024-06-01T00:00:00.000Z" } []).1
    "2024-06-01T00:00:00.000Z" rfl (by decide) (by decide) (by decide)
  have h2 := (detect_deadline_rules { id := some "T2" }
    [(some "T2",
      { status := "needsAction"
        due := some "2024-06-01T00:00:00.000Z" })]).2.1 rfl (by decide)
  have h3 := (detect_deadline_rules
    { id := some "T3", due := some "2024-06-01T00:00:00.000Z" }
    [(some "T3",
      { status := "needsAction"
        due := some "2024-06-01T00:00:00.000Z" })]).2.2 (by decide)
  exact ⟨h1.trans (by decide), h2, h3⟩

/-- Witness for the orphan-pruning theorem, over `exMapping` with an empty
liveness set: the provisional entry `U1` survives untouched, the synced
entry `U2` is cancelled and dropped. -/
theorem orphan_pruning_witness :
    alookup (pruneOrphans envAllOk [] exMapping []).1 "U1" =
      some { google_id := some "G1", title := some "Pay rent", last_synced := none } ∧
    Effect.cancelThings "U1" ∉ (pruneOrphans envAllOk [] exMapping []).2.effects ∧
    Effect.cancelThings "U2" ∈ (pruneOrphans envAllOk [] exMapping []).2.effects ∧
    alookup (pruneOrphans envAllOk [] exMapping []).1 "U2" = none := by
  have h := orphan_pruning_provisional_and_live envAllOk [] exMapping [] (by decide)
  have ha := h.1 "U1"
    { google_id := some "G1", title := some "Pay rent", last_synced := none }
    (by decide) (by decide)
  have hb := h.2 "U2"
    { google_id := some "G2"
      title := some "Buy milk"
      last_synced := some "2024-01-01T00:00:00" }
    (by decide) (by decide) (by decide) (by decide) (by decide)
  exact ⟨ha.1, ha.2, hb.1, hb.2 (by decide)⟩

/-- Witness for update-before-delete: with a failing Things update no Google
delete is issued and the mapping survives; with a succeeding update but a
failing Google delete the two effects appear in order and the mapping still
survives. -/
theorem things_update_precedes_google_delete_witness :
    (syncListStep envUpdateFails "L1" exSt exTaskCompleted).effects =
      exSt.effects ++ [Effect.updateThings "U1"
        (stripMfd (detectChanges exTaskCompleted exSt.task_states).1)] ∧
    (syncListStep envUpdateFails "L1" exSt exTaskCompleted).task_mapping =
      exSt.task_mapping ∧
    (syncListStep envDeleteFails "L1" exSt exTaskCompleted).effects =
      exSt.effects ++ [Effect.updateThings "U1"
        (stripMfd (detectChanges exTaskCompleted exSt.task_states).1),
        Effect.deleteGoogle "L1" (exTaskCompleted.id.getD "")] ∧
    (syncListStep envDeleteFails "L1" exSt exTaskCompleted).task_mapping =
      exSt.task_mapping := by
  have h1 := (things_update_precedes_google_delete envUpdateFails "L1" exSt
    exTaskCompleted "U1" (by decide) (by decide) (by decide) (by decide)).1 (by decide)
  have h2 := (things_update_precedes_google_delete envDeleteFails "L1" exSt
    exTaskCompleted "U1" (by decide) (by decide) (by decide) (by decide)).2 (by decide)
  exact ⟨h1.1, h1.2, h2.1, h2.2 (by decide)⟩

/-- Witness for state-overwrite-before-update: even when the Things update
fails, the observed state already records the completed task, and re-running
detection emits nothing. -/
theorem observed_state_written_before_update_witness :
    alookup ((syncListStep envUpdateFails "L1" exSt exTaskCompleted).task_states)
      exTaskCompleted.id = some (observedOf exTaskCompleted) ∧
    (detectChanges exTaskCompleted
      ((syncListStep envUpdateFails "L1" exSt exTaskCompleted).task_states)).1 = {} := by
  exact observed_state_written_before_update envUpdateFails "L1" exSt
    exTaskCompleted "U1" (by decide) (by decide) (Or.inr (by decide))

/-- Witness for cloud-id-only resolution: no entry of `exMapping` carries
`G9`, and the driver's loop iteration over a `G9` task is a no-op. -/
theorem resolve_by_cloud_id_only_witness :
    (findThingsUUID exMapping "G9" = none ↔
      ∀ p ∈ exMapping, p.2.google_id ≠ some "G9") ∧
    syncListStep envAllOk "L1" exSt { id := some "G9" } = exSt := by
  refine ⟨(resolve_by_cloud_id_only exMapping "G9" envAllOk "L1" exSt
    { id := some "G9" }).1, ?_⟩
  exact (resolve_by_cloud_id_only exMapping "G9" envAllOk "L1" exSt
    { id := some "G9" }).2 (by decide) (by decide)

/-- Witness for the dedup filters: a candidate with a recorded TaskID is
dropped by the someday filter, and a candidate with a known canonical title
is dropped by the anytime filter. -/
theorem dedup_filters_exclude_known_witness :
    ({ title := "Buy  Milk", task_id := "X" } : ExtractTask) ∉
      filterSomeday (loadExistingTaskIds [{ ItemName := "alpha", TaskID := "X" }])
        ["buy milk"] [{ title := "Buy  Milk", task_id := "X" }] ∧
    ({ title := "Buy  Milk", task_id := "X" } : ExtractTask) ∉
      filterAnytime ["buy milk"] [{ title := "Buy  Milk", task_id := "X" }] := by
  constructor
  · exact (dedup_filters_exclude_known [{ ItemName := "alpha", TaskID := "X" }]
      ["buy milk"] [{ title := "Buy  Milk", task_id := "X" }]
      { title := "Buy  Milk", task_id := "X" }).1 (Or.inl (by decide))
  · exact (dedup_filters_exclude_known [{ ItemName := "alpha", TaskID := "X" }]
      ["buy milk"] [{ title := "Buy  Milk", task_id := "X" }]
      { title := "Buy  Milk", task_id := "X" }).2 (by decide)

end Things3Sync
